import Mathlib

/-!
Verification of the core engine of a Vietnamese word-chain game library.

The engine consists of a `WordChecker` (text normalization, format
validation, dictionary membership, connection checks) and a
`NextWordFinder` (next-move search with history exclusion).  JavaScript
strings are modelled as lists of Unicode scalar values (`Char`), a
`WordDictionary` (a JS object mapping first syllables to arrays of second
syllables) as an insertion-ordered association list, and the `Map` used
for the pre-normalized index as an association list with
update-in-place-or-append `set` semantics.  `String.prototype.toLowerCase`
and `String.prototype.normalize('NFD')` are modelled per character over
the Vietnamese repertoire appearing in the library's character class
(identity elsewhere).  The random source (`Math.random`) is modelled as an
injected capability `choose : Nat → Nat` producing a uniform index in
`[0, n)` when applied to `n`.
-/

set_option maxHeartbeats 1000000

/-- JavaScript strings as lists of Unicode scalar values. -/
abbrev Str := List Char

/-- The ECMAScript whitespace class `\s` (also the set stripped by
`String.prototype.trim`). -/
def jsWs (c : Char) : Bool :=
  let n := c.toNat
  n == 9 || n == 10 || n == 11 || n == 12 || n == 13 || n == 32 ||
  n == 0xa0 || n == 0x1680 || (0x2000 ≤ n && n ≤ 0x200a) ||
  n == 0x2028 || n == 0x2029 || n == 0x202f || n == 0x205f ||
  n == 0x3000 || n == 0xfeff

/-- Canonical (NFD) decompositions of the precomposed Vietnamese letters
of the library's character class, lowercase and uppercase.  The letters
đ/Đ have no canonical decomposition and are absent.  Combining marks are
ordered by canonical combining class as NFD requires. -/
def vnDecompTable : List (Char × List Char) := [
  ('à', ['a', '\u0300']),
  ('á', ['a', '\u0301']),
  ('ả', ['a', '\u0309']),
  ('ã', ['a', '\u0303']),
  ('ạ', ['a', '\u0323']),
  ('ă', ['a', '\u0306']),
  ('ằ', ['a', '\u0306', '\u0300']),
  ('ắ', ['a', '\u0306', '\u0301']),
  ('ẳ', ['a', '\u0306', '\u0309']),
  ('ẵ', ['a', '\u0306', '\u0303']),
  ('ặ', ['a', '\u0323', '\u0306']),
  ('â', ['a', '\u0302']),
  ('ầ', ['a', '\u0302', '\u0300']),
  ('ấ', ['a', '\u0302', '\u0301']),
  ('ẩ', ['a', '\u0302', '\u0309']),
  ('ẫ', ['a', '\u0302', '\u0303']),
  ('ậ', ['a', '\u0323', '\u0302']),
  ('è', ['e', '\u0300']),
  ('é', ['e', '\u0301']),
  ('ẻ', ['e', '\u0309']),
  ('ẽ', ['e', '\u0303']),
  ('ẹ', ['e', '\u0323']),
  ('ê', ['e', '\u0302']),
  ('ề', ['e', '\u0302', '\u0300']),
  ('ế', ['e', '\u0302', '\u0301']),
  ('ể', ['e', '\u0302', '\u0309']),
  ('ễ', ['e', '\u0302', '\u0303']),
  ('ệ', ['e', '\u0323', '\u0302']),
  ('ì', ['i', '\u0300']),
  ('í', ['i', '\u0301']),
  ('ỉ', ['i', '\u0309']),
  ('ĩ', ['i', '\u0303']),
  ('ị', ['i', '\u0323']),
  ('ò', ['o', '\u0300']),
  ('ó', ['o', '\u0301']),
  ('ỏ', ['o', '\u0309']),
  ('õ', ['o', '\u0303']),
  ('ọ', ['o', '\u0323']),
  ('ô', ['o', '\u0302']),
  ('ồ', ['o', '\u0302', '\u0300']),
  ('ố', ['o', '\u0302', '\u0301']),
  ('ổ', ['o', '\u0302', '\u0309']),
  ('ỗ', ['o', '\u0302', '\u0303']),
  ('ộ', ['o', '\u0323', '\u0302']),
  ('ơ', ['o', '\u031b']),
  ('ờ', ['o', '\u031b', '\u0300']),
  ('ớ', ['o', '\u031b', '\u0301']),
  ('ở', ['o', '\u031b', '\u0309']),
  ('ỡ', ['o', '\u031b', '\u0303']),
  ('ợ', ['o', '\u031b', '\u0323']),
  ('ù', ['u', '\u0300']),
  ('ú', ['u', '\u0301']),
  ('ủ', ['u', '\u0309']),
  ('ũ', ['u', '\u0303']),
  ('ụ', ['u', '\u0323']),
  ('ư', ['u', '\u031b']),
  ('ừ', ['u', '\u031b', '\u0300']),
  ('ứ', ['u', '\u031b', '\u0301']),
  ('ử', ['u', '\u031b', '\u0309']),
  ('ữ', ['u', '\u031b', '\u0303']),
  ('ự', ['u', '\u031b', '\u0323']),
  ('ỳ', ['y', '\u0300']),
  ('ý', ['y', '\u0301']),
  ('ỷ', ['y', '\u0309']),
  ('ỹ', ['y', '\u0303']),
  ('ỵ', ['y', '\u0323']),
  ('À', ['A', '\u0300']),
  ('Á', ['A', '\u0301']),
  ('Ả', ['A', '\u0309']),
  ('Ã', ['A', '\u0303']),
  ('Ạ', ['A', '\u0323']),
  ('Ă', ['A', '\u0306']),
  ('Ằ', ['A', '\u0306', '\u0300']),
  ('Ắ', ['A', '\u0306', '\u0301']),
  ('Ẳ', ['A', '\u0306', '\u0309']),
  ('Ẵ', ['A', '\u0306', '\u0303']),
  ('Ặ', ['A', '\u0323', '\u0306']),
  ('Â', ['A', '\u0302']),
  ('Ầ', ['A', '\u0302', '\u0300']),
  ('Ấ', ['A', '\u0302', '\u0301']),
  ('Ẩ', ['A', '\u0302', '\u0309']),
  ('Ẫ', ['A', '\u0302', '\u0303']),
  ('Ậ', ['A', '\u0323', '\u0302']),
  ('È', ['E', '\u0300']),
  ('É', ['E', '\u0301']),
  ('Ẻ', ['E', '\u0309']),
  ('Ẽ', ['E', '\u0303']),
  ('Ẹ', ['E', '\u0323']),
  ('Ê', ['E', '\u0302']),
  ('Ề', ['E', '\u0302', '\u0300']),
  ('Ế', ['E', '\u0302', '\u0301']),
  ('Ể', ['E', '\u0302', '\u0309']),
  ('Ễ', ['E', '\u0302', '\u0303']),
  ('Ệ', ['E', '\u0323', '\u0302']),
  ('Ì', ['I', '\u0300']),
  ('Í', ['I', '\u0301']),
  ('Ỉ', ['I', '\u0309']),
  ('Ĩ', ['I', '\u0303']),
  ('Ị', ['I', '\u0323']),
  ('Ò', ['O', '\u0300']),
  ('Ó', ['O', '\u0301']),
  ('Ỏ', ['O', '\u0309']),
  ('Õ', ['O', '\u0303']),
  ('Ọ', ['O', '\u0323']),
  ('Ô', ['O', '\u0302']),
  ('Ồ', ['O', '\u0302', '\u0300']),
  ('Ố', ['O', '\u0302', '\u0301']),
  ('Ổ', ['O', '\u0302', '\u0309']),
  ('Ỗ', ['O', '\u0302', '\u0303']),
  ('Ộ', ['O', '\u0323', '\u0302']),
  ('Ơ', ['O', '\u031b']),
  ('Ờ', ['O', '\u031b', '\u0300']),
  ('Ớ', ['O', '\u031b', '\u0301']),
  ('Ở', ['O', '\u031b', '\u0309']),
  ('Ỡ', ['O', '\u031b', '\u0303']),
  ('Ợ', ['O', '\u031b', '\u0323']),
  ('Ù', ['U', '\u0300']),
  ('Ú', ['U', '\u0301']),
  ('Ủ', ['U', '\u0309']),
  ('Ũ', ['U', '\u0303']),
  ('Ụ', ['U', '\u0323']),
  ('Ư', ['U', '\u031b']),
  ('Ừ', ['U', '\u031b', '\u0300']),
  ('Ứ', ['U', '\u031b', '\u0301']),
  ('Ử', ['U', '\u031b', '\u0309']),
  ('Ữ', ['U', '\u031b', '\u0303']),
  ('Ự', ['U', '\u031b', '\u0323']),
  ('Ỳ', ['Y', '\u0300']),
  ('Ý', ['Y', '\u0301']),
  ('Ỷ', ['Y', '\u0309']),
  ('Ỹ', ['Y', '\u0303']),
  ('Ỵ', ['Y', '\u0323'])]

def vnUpperLowerTable : List (Char × Char) := [
  ('À', 'à'),
  ('Á', 'á'),
  ('Ả', 'ả'),
  ('Ã', 'ã'),
  ('Ạ', 'ạ'),
  ('Ă', 'ă'),
  ('Ằ', 'ằ'),
  ('Ắ', 'ắ'),
  ('Ẳ', 'ẳ'),
  ('Ẵ', 'ẵ'),
  ('Ặ', 'ặ'),
  ('Â', 'â'),
  ('Ầ', 'ầ'),
  ('Ấ', 'ấ'),
  ('Ẩ', 'ẩ'),
  ('Ẫ', 'ẫ'),
  ('Ậ', 'ậ'),
  ('Đ', 'đ'),
  ('È', 'è'),
  ('É', 'é'),
  ('Ẻ', 'ẻ'),
  ('Ẽ', 'ẽ'),
  ('Ẹ', 'ẹ'),
  ('Ê', 'ê'),
  ('Ề', 'ề'),
  ('Ế', 'ế'),
  ('Ể', 'ể'),
  ('Ễ', 'ễ'),
  ('Ệ', 'ệ'),
  ('Ì', 'ì'),
  ('Í', 'í'),
  ('Ỉ', 'ỉ'),
  ('Ĩ', 'ĩ'),
  ('Ị', 'ị'),
  ('Ò', 'ò'),
  ('Ó', 'ó'),
  ('Ỏ', 'ỏ'),
  ('Õ', 'õ'),
  ('Ọ', 'ọ'),
  ('Ô', 'ô'),
  ('Ồ', 'ồ'),
  ('Ố', 'ố'),
  ('Ổ', 'ổ'),
  ('Ỗ', 'ỗ'),
  ('Ộ', 'ộ'),
  ('Ơ', 'ơ'),
  ('Ờ', 'ờ'),
  ('Ớ', 'ớ'),
  ('Ở', 'ở'),
  ('Ỡ', 'ỡ'),
  ('Ợ', 'ợ'),
  ('Ù', 'ù'),
  ('Ú', 'ú'),
  ('Ủ', 'ủ'),
  ('Ũ', 'ũ'),
  ('Ụ', 'ụ'),
  ('Ư', 'ư'),
  ('Ừ', 'ừ'),
  ('Ứ', 'ứ'),
  ('Ử', 'ử'),
  ('Ữ', 'ữ'),
  ('Ự', 'ự'),
  ('Ỳ', 'ỳ'),
  ('Ý', 'ý'),
  ('Ỷ', 'ỷ'),
  ('Ỹ', 'ỹ'),
  ('Ỵ', 'ỵ')]

def vietnameseAccented : List Char := [
  'à', 'á', 'ả', 'ã', 'ạ', 'ă', 'ằ', 'ắ', 'ẳ', 'ẵ', 'ặ', 'â', 'ầ', 'ấ', 'ẩ', 'ẫ', 'ậ', 'đ', 'è', 'é', 'ẻ', 'ẽ', 'ẹ', 'ê', 'ề', 'ế', 'ể', 'ễ', 'ệ', 'ì', 'í', 'ỉ', 'ĩ', 'ị', 'ò', 'ó', 'ỏ', 'õ', 'ọ', 'ô', 'ồ', 'ố', 'ổ', 'ỗ', 'ộ', 'ơ', 'ờ', 'ớ', 'ở', 'ỡ', 'ợ', 'ù', 'ú', 'ủ', 'ũ', 'ụ', 'ư', 'ừ', 'ứ', 'ử', 'ữ', 'ự', 'ỳ', 'ý', 'ỷ', 'ỹ', 'ỵ']

/-- One step of `String.prototype.normalize('NFD')`: canonical
decomposition of a single scalar value (identity outside the modelled
repertoire). -/
def decomposeChar (c : Char) : List Char :=
  match List.lookup c vnDecompTable with
  | some l => l
  | none => [c]

/-- NFD normalization of a string, per character. -/
def nfd (s : Str) : Str := s.flatMap decomposeChar

/-- Membership in the Unicode combining-diacritics block U+0300–U+036F,
the class removed by `replace(/[̀-ͯ]/g, '')`. -/
def isCombMark (c : Char) : Bool := 0x300 ≤ c.toNat && c.toNat ≤ 0x36f

/-- The two substitutions `replace(/đ/g, 'd')` and `replace(/Đ/g, 'D')`,
fused into one character map (the two patterns are distinct letters). -/
def foldDChar (c : Char) : Char :=
  if c = 'đ' then 'd' else if c = 'Đ' then 'D' else c

/-- `WordChecker.normalizeVietnamese`: NFD-decompose, strip the combining
marks U+0300–U+036F, then fold đ/Đ to d/D. -/
def normalizeVietnamese (text : Str) : Str :=
  ((nfd text).filter (fun c => !isCombMark c)).map foldDChar

/-- `String.prototype.toLowerCase` per character: ASCII A–Z by code
shift, the Vietnamese uppercase letters by table, identity elsewhere. -/
def toLowerChar (c : Char) : Char :=
  if 0x41 ≤ c.toNat && c.toNat ≤ 0x5a then Char.ofNat (c.toNat + 32)
  else
    match List.lookup c vnUpperLowerTable with
    | some l => l
    | none => c

/-- `String.prototype.toLowerCase` on a whole string. -/
def toLowerStr (s : Str) : Str := s.map toLowerChar

/-- `String.prototype.trim`: strip leading and trailing whitespace. -/
def jsTrim (s : Str) : Str :=
  ((s.dropWhile jsWs).reverse.dropWhile jsWs).reverse

/-- Splitting on runs of whitespace with empty tokens discarded: the
composite of `split(/\s+/)` and `filter(word => word.length > 0)`.  The
accumulator carries the current token reversed. -/
def splitWsGo (cur : Str) : Str → List Str
  | [] => if cur.isEmpty then [] else [cur.reverse]
  | c :: rest =>
      if jsWs c then
        if cur.isEmpty then splitWsGo [] rest
        else cur.reverse :: splitWsGo [] rest
      else splitWsGo (c :: cur) rest

/-- The list of maximal whitespace-free tokens of a string. -/
def splitWs (s : Str) : List Str := splitWsGo [] s

/-- Test of one character against the character class of
`vietnameseRegex`: ASCII letters, the enumerated Vietnamese lowercase
letters, and whitespace. -/
def vietnameseRegexChar (c : Char) : Bool :=
  (0x41 ≤ c.toNat && c.toNat ≤ 0x5a) || (0x61 ≤ c.toNat && c.toNat ≤ 0x7a) ||
  vietnameseAccented.contains c || jsWs c

/-- `vietnameseRegex.test`: the regex is `^[class]+$`, so the string must
be nonempty and consist only of class characters. -/
def vietnameseRegexTest (w : Str) : Bool :=
  !w.isEmpty && w.all vietnameseRegexChar

/-- Result of `WordChecker.validateFormat`: the TS object
`{ isValid: boolean; words?: string[] }`. -/
structure FormatResult where
  isValid : Bool
  words : Option (List Str)
deriving DecidableEq

/-- `WordChecker.validateFormat`: trim; reject empty; split on runs of
whitespace discarding empties; reject unless exactly 2 tokens; reject
unless both tokens match the Vietnamese character class. -/
def validateFormat (input : Str) : FormatResult :=
  let trimmed := jsTrim input
  if trimmed.isEmpty then ⟨false, none⟩
  else
    match splitWs trimmed with
    | [w0, w1] =>
        if !vietnameseRegexTest w0 || !vietnameseRegexTest w1 then
          ⟨false, none⟩
        else ⟨true, some [w0, w1]⟩
    | _ => ⟨false, none⟩

/-- A `WordDictionary`: a JS object mapping first syllables to arrays of
second syllables, modelled as an insertion-ordered association list
(`Object.entries` iterates string keys in insertion order). -/
abbrev WordDictionary := List (Str × List Str)

/-- `Map.prototype.set`: update the value in place when the key is
already present, otherwise append the binding. -/
def mapSet (m : List (Str × List Str)) (k : Str) (v : List Str) :
    List (Str × List Str) :=
  match m with
  | [] => [(k, v)]
  | (k', v') :: rest =>
      if k' = k then (k, v) :: rest else (k', v') :: mapSet rest k v

/-- `Map.prototype.get` (`none` models `undefined`). -/
def mapGet (m : List (Str × List Str)) (k : Str) : Option (List Str) :=
  match m with
  | [] => none
  | (k', v) :: rest => if k' = k then some v else mapGet rest k

/-- The `WordChecker` constructor's index build: for each dictionary
entry in iteration order, `set` the normalized lowercased key to the
lowercased values. -/
def normalizedDictionary (dictionary : WordDictionary) :
    List (Str × List Str) :=
  dictionary.foldl
    (fun m e =>
      mapSet m (normalizeVietnamese (toLowerStr e.1)) (e.2.map toLowerStr))
    []

/-- `WordChecker.isWordInDictionary`: normalize+lowercase the first
syllable, look it up in the index, and test membership of the lowercased
(not normalized) second syllable. -/
def isWordInDictionary (dictionary : WordDictionary)
    (firstWord secondWord : Str) : Bool :=
  let normalizedFirst := normalizeVietnamese (toLowerStr firstWord)
  let normalizedSecond := toLowerStr secondWord
  match mapGet (normalizedDictionary dictionary) normalizedFirst with
  | some secondWords => secondWords.contains normalizedSecond
  | none => false

/-- The reason codes of `ValidationResult`. -/
inductive Reason where
  | invalid_format
  | word_not_found
  | word_used
  | no_connection
  | invalid_characters
deriving DecidableEq

/-- The TS `ValidationResult` object. -/
structure ValidationResult where
  isValid : Bool
  reason : Option Reason
  error : Option Str
deriving DecidableEq

/-- A TS `WordPair`. -/
structure WordPair where
  first : Str
  second : Str
deriving DecidableEq

/-- Message for a malformed submission. -/
def msgInvalidFormat : Str :=
  String.toList "Từ phải gồm đúng 2 chữ cách nhau bởi dấu cách"

/-- Message for a pair absent from the dictionary, embedding the pair. -/
def msgNotFound (firstWord secondWord : Str) : Str :=
  String.toList "Từ \"" ++ firstWord ++ [' '] ++ secondWord ++
    String.toList "\" không có trong từ điển"

/-- Message for a pair already used in the game. -/
def msgWordUsed : Str :=
  String.toList "Từ này đã được sử dụng trong game"

/-- The pair key: both syllables normalized and lowercased, joined with a
hyphen, as built inside `validateWord`. -/
def wordKey (firstWord secondWord : Str) : Str :=
  normalizeVietnamese (toLowerStr firstWord) ++ ['-'] ++
    normalizeVietnamese (toLowerStr secondWord)

/-- `WordChecker.validateWord`: format check, then dictionary lookup,
then used-word check; all failures reported through the result value.
The TS code destructures `formatCheck.words!` after `isValid` is
established; the unreachable arm repeats the format-failure result. -/
def validateWord (dictionary : WordDictionary) (input : Str)
    (usedWords : List Str) : ValidationResult :=
  match validateFormat input with
  | ⟨false, _⟩ => ⟨false, some .invalid_format, some msgInvalidFormat⟩
  | ⟨true, some (firstWord :: secondWord :: _)⟩ =>
      if !isWordInDictionary dictionary firstWord secondWord then
        ⟨false, some .word_not_found, some (msgNotFound firstWord secondWord)⟩
      else if usedWords.contains (wordKey firstWord secondWord) then
        ⟨false, some .word_used, some msgWordUsed⟩
      else ⟨true, none, none⟩
  | ⟨true, _⟩ => ⟨false, some .invalid_format, some msgInvalidFormat⟩

/-- `WordChecker.canConnect`: the normalized lowercased second syllable
of the first pair equals the normalized lowercased first syllable of the
second pair. -/
def canConnect (firstPair secondPair : WordPair) : Bool :=
  normalizeVietnamese (toLowerStr firstPair.second) ==
    normalizeVietnamese (toLowerStr secondPair.first)

/-- `WordChecker.getPossibleNextWords`: scan the original dictionary in
iteration order and push one pair per value of every key whose
normalized lowercased form equals the normalized lowercased ending
word. -/
def getPossibleNextWords (dictionary : WordDictionary)
    (endingWord : Str) : List WordPair :=
  let normalizedEnding := normalizeVietnamese (toLowerStr endingWord)
  dictionary.foldl
    (fun possiblePairs e =>
      if normalizeVietnamese (toLowerStr e.1) == normalizedEnding then
        possiblePairs ++ e.2.map (fun secondWord => ⟨e.1, secondWord⟩)
      else possiblePairs)
    []

/-- Message for a pair that does not chain onto the current pair. -/
def msgNoConnection (newWord : WordPair) (currentWord : WordPair) : Str :=
  String.toList "Từ \"" ++ newWord.first ++ [' '] ++ newWord.second ++
    String.toList "\" không nối được với \"" ++ currentWord.second ++
    String.toList "\""

/-- `WordChecker.validateConnection`: always valid at game start,
otherwise delegates to `canConnect`. -/
def validateConnection (currentWord : Option WordPair)
    (newWord : WordPair) : ValidationResult :=
  match currentWord with
  | none => ⟨true, none, none⟩
  | some current =>
      if !canConnect current newWord then
        ⟨false, some .no_connection, some (msgNoConnection newWord current)⟩
      else ⟨true, none, none⟩

/-- The TS `NextWordResult` object. -/
structure NextWordResult where
  word : Option WordPair
  found : Bool
  alternatives : Option (List WordPair)
deriving DecidableEq

/-- `NextWordFinder.findFirstWord`: pick a random key; if its value
sequence is empty fail, otherwise pick a random value.  Each
`Math.floor(Math.random() * n)` draw is an application of the injected
`choose` to the range size `n`. -/
def findFirstWord (dictionary : WordDictionary) (choose : Nat → Nat) :
    NextWordResult :=
  if dictionary.isEmpty then ⟨none, false, none⟩
  else
    match dictionary.get? (choose dictionary.length) with
    | none => ⟨none, false, none⟩
    | some (randomFirstWord, secondWords) =>
        if secondWords.isEmpty then ⟨none, false, none⟩
        else
          match secondWords.get? (choose secondWords.length) with
          | none => ⟨none, false, none⟩
          | some randomSecondWord =>
              ⟨some ⟨randomFirstWord, randomSecondWord⟩, true, none⟩

/-- The history filter of `NextWordFinder.findNextWord`: a candidate is
kept unless some history pair matches it on the normalized lowercased
forms of both fields. -/
def filterHistory (history : List WordPair) (possibleWords : List WordPair) :
    List WordPair :=
  possibleWords.filter (fun word =>
    !history.any (fun historyWord =>
      (normalizeVietnamese (toLowerStr historyWord.first) ==
        normalizeVietnamese (toLowerStr word.first)) &&
      (normalizeVietnamese (toLowerStr historyWord.second) ==
        normalizeVietnamese (toLowerStr word.second))))

/-- `NextWordFinder.findNextWord`: delegate to `findFirstWord` with no
current word; otherwise compute candidates, fail with no alternatives
when there are none, filter out history, fail with the full unfiltered
candidates when all are excluded, and otherwise select a random
available pair, attaching the first 5 available pairs as
alternatives. -/
def findNextWord (dictionary : WordDictionary) (choose : Nat → Nat)
    (currentWord : Option WordPair) (history : List WordPair) :
    NextWordResult :=
  match currentWord with
  | none => findFirstWord dictionary choose
  | some current =>
      let possibleWords := getPossibleNextWords dictionary current.second
      if possibleWords.isEmpty then ⟨none, false, none⟩
      else
        let availableWords := filterHistory history possibleWords
        if availableWords.isEmpty then ⟨none, false, some possibleWords⟩
        else
          ⟨availableWords.get? (choose availableWords.length), true,
            some (availableWords.take 5)⟩

/-- The sample dictionary of the library's test suite. -/
def sampleDictionary : WordDictionary :=
  [(String.toList "thế", [String.toList "chân", String.toList "giới"]),
   (String.toList "chân", [String.toList "thật", String.toList "trời"]),
   (String.toList "trời", [String.toList "xanh", String.toList "đất"]),
   (String.toList "xanh", [String.toList "lá", String.toList "biếc"]),
   (String.toList "lá", [String.toList "cây", String.toList "xanh"])]

/-- A dictionary whose two distinct keys normalize to the same form. -/
def collidingDictionary : WordDictionary :=
  [(String.toList "đa", [String.toList "cam"]),
   (String.toList "da", [String.toList "bò"])]

/-! ### Properties of the normalizer -/

/-- The image of one character under the whole normalization pipeline. -/
def normCharV (c : Char) : Str :=
  ((decomposeChar c).filter (fun d => !isCombMark d)).map foldDChar

/-- A character left alone by every stage of the pipeline: no canonical
decomposition, not a combining mark, and not đ/Đ. -/
def inertChar (c : Char) : Bool :=
  (List.lookup c vnDecompTable).isNone && !isCombMark c &&
    !(c == 'đ') && !(c == 'Đ')

/-! ### Properties of the normalized index -/

/-- The normalized lookup key built from an original dictionary key. -/
def normKeyOf (k : Str) : Str := normalizeVietnamese (toLowerStr k)

/-- One step of the constructor's fold. -/
def indexStep (m : List (Str × List Str)) (e : Str × List Str) :
    List (Str × List Str) :=
  mapSet m (normKeyOf e.1) (e.2.map toLowerStr)

/-! ### Claim theorems: format validation -/

/-- The Vietnamese-plus-ASCII-letter class: the characters of the
regex class other than whitespace. -/
def letterClass (c : Char) : Bool :=
  (0x41 ≤ c.toNat && c.toNat ≤ 0x5a) || (0x61 ≤ c.toNat && c.toNat ≤ 0x7a) ||
  vietnameseAccented.contains c

/-- A dictionary with two second syllables differing only in
diacritics. -/
def pairKeyDictionary : WordDictionary :=
  [(String.toList "a", [String.toList "bạn", String.toList "ban"])]

theorem normalizeVietnamese_nil : normalizeVietnamese [] = [] := rfl

theorem normalizeVietnamese_cons (c : Char) (s : Str) :
    normalizeVietnamese (c :: s) = normCharV c ++ normalizeVietnamese s := by
  simp [normalizeVietnamese, nfd, normCharV, List.filter_append,
    List.map_append]

theorem normalizeVietnamese_append (s t : Str) :
    normalizeVietnamese (s ++ t) =
      normalizeVietnamese s ++ normalizeVietnamese t := by
  induction s with
  | nil => rfl
  | cons c s ih =>
      simp [normalizeVietnamese_cons, ih, List.append_assoc]

/-- Membership extraction for association-list lookup. -/
theorem lookup_mem {α β : Type} [BEq α] [LawfulBEq α] {a : α} {b : β}
    {ps : List (α × β)} (h : List.lookup a ps = some b) : (a, b) ∈ ps := by
  induction ps with
  | nil => simp [List.lookup] at h
  | cons p ps ih =>
      obtain ⟨k, v⟩ := p
      rw [List.lookup] at h
      cases hk : (a == k) with
      | true =>
          rw [hk] at h
          have hv : v = b := by simpa using h
          have hk' : a = k := eq_of_beq hk
          subst hv; cases hk'
          exact List.mem_cons_self _ _
      | false =>
          rw [hk] at h
          exact List.mem_cons_of_mem _ (ih (by simpa using h))

/-- Every decomposition in the table maps, after mark stripping and
đ-folding, to inert characters only. -/
theorem vnDecompTable_inert :
    vnDecompTable.all
      (fun p => ((p.2.filter (fun d => !isCombMark d)).map foldDChar).all
        inertChar) = true := by decide

theorem inertChar_fix {c : Char} (h : inertChar c = true) :
    normCharV c = [c] := by
  unfold inertChar at h
  simp only [Bool.and_eq_true, Option.isNone_iff_eq_none, Bool.not_eq_true',
    beq_eq_false_iff_ne, ne_eq] at h
  obtain ⟨⟨⟨h1, h2⟩, h3⟩, h4⟩ := h
  unfold normCharV decomposeChar
  rw [h1]
  simp [List.filter, h2, foldDChar, h3, h4]

theorem normCharV_all_inert (c : Char) :
    (normCharV c).all inertChar = true := by
  cases hl : List.lookup c vnDecompTable with
  | some l =>
      have hm : (c, l) ∈ vnDecompTable := lookup_mem hl
      have := List.all_eq_true.mp vnDecompTable_inert _ hm
      unfold normCharV decomposeChar
      rw [hl]
      exact this
  | none =>
      unfold normCharV decomposeChar
      rw [hl]
      by_cases hm : isCombMark c
      · simp [List.filter, hm]
      · simp only [List.filter, hm, Bool.not_false]
        by_cases hd : c = 'đ'
        · subst hd; decide
        · by_cases hD : c = 'Đ'
          · subst hD; decide
          · simp [foldDChar, hd, hD, List.all_cons, inertChar, hl, hm]

theorem normalizeVietnamese_of_all_inert {l : Str}
    (h : l.all inertChar = true) : normalizeVietnamese l = l := by
  induction l with
  | nil => rfl
  | cons c t ih =>
      rw [List.all_cons, Bool.and_eq_true] at h
      rw [normalizeVietnamese_cons, inertChar_fix h.1, ih h.2]
      rfl

theorem normalizeVietnamese_all_inert (s : Str) :
    (normalizeVietnamese s).all inertChar = true := by
  induction s with
  | nil => rfl
  | cons c t ih =>
      rw [normalizeVietnamese_cons, List.all_append, Bool.and_eq_true]
      exact ⟨normCharV_all_inert c, ih⟩

/-- The normalizer is idempotent. -/
theorem normalizeVietnamese_idem (s : Str) :
    normalizeVietnamese (normalizeVietnamese s) = normalizeVietnamese s :=
  normalizeVietnamese_of_all_inert (normalizeVietnamese_all_inert s)

theorem mapGet_mapSet (m : List (Str × List Str)) (k : Str) (v : List Str)
    (k' : Str) :
    mapGet (mapSet m k v) k' = if k' = k then some v else mapGet m k' := by
  induction m with
  | nil =>
      by_cases h : k' = k
      · subst h; simp [mapSet, mapGet]
      · simp only [mapSet, mapGet]
        rw [if_neg (fun hh => h hh.symm), if_neg h]
  | cons p m ih =>
      obtain ⟨k0, v0⟩ := p
      by_cases h0 : k0 = k
      · subst h0
        by_cases h : k' = k0
        · subst h; simp [mapSet, mapGet]
        · simp only [mapSet, if_pos rfl, mapGet]
          rw [if_neg (fun hh => h hh.symm), if_neg h,
            if_neg (fun hh => h hh.symm)]
      · simp only [mapSet, if_neg h0, mapGet, ih]
        by_cases hq : k0 = k'
        · rw [if_pos hq, if_neg (fun hh : k' = k => h0 (hq.trans hh)),
            if_pos hq]
        · rw [if_neg hq]
          by_cases hk : k' = k
          · rw [if_pos hk, if_pos hk]
          · rw [if_neg hk, if_neg hk, if_neg hq]

theorem normalizedDictionary_eq_foldl (dictionary : WordDictionary) :
    normalizedDictionary dictionary = dictionary.foldl indexStep [] := rfl

/-- Entries whose normalized key differs from `nk` never touch the
binding of `nk`. -/
theorem mapGet_foldl_of_untouched (l : WordDictionary)
    (m : List (Str × List Str)) (nk : Str)
    (h : ∀ e ∈ l, normKeyOf e.1 ≠ nk) :
    mapGet (l.foldl indexStep m) nk = mapGet m nk := by
  induction l generalizing m with
  | nil => rfl
  | cons e l ih =>
      rw [List.foldl_cons, ih _ (fun x hx => h x (List.mem_cons_of_mem _ hx))]
      rw [indexStep, mapGet_mapSet]
      have : nk ≠ normKeyOf e.1 := (h e (List.mem_cons_self _ _)).symm
      simp [this]

/-- Last-wins characterization of the index: the binding of a normalized
key is the lowercased value list of the last dictionary entry whose key
normalizes to it. -/
theorem normalizedDictionary_last_wins (l1 l2 : WordDictionary) (K : Str)
    (vs : List Str) (h : ∀ e ∈ l2, normKeyOf e.1 ≠ normKeyOf K) :
    mapGet (normalizedDictionary (l1 ++ (K, vs) :: l2)) (normKeyOf K) =
      some (vs.map toLowerStr) := by
  rw [normalizedDictionary_eq_foldl, List.foldl_append, List.foldl_cons]
  rw [mapGet_foldl_of_untouched l2 _ _ h]
  rw [indexStep, mapGet_mapSet]
  simp

/-! ### Properties of `getPossibleNextWords` -/

theorem foldl_filter_push {α β : Type} (p : α → Bool) (f : α → List β) :
    ∀ (l : List α) (acc : List β),
      l.foldl (fun acc e => if p e then acc ++ f e else acc) acc =
        acc ++ (l.filter p).flatMap f := by
  intro l
  induction l with
  | nil => simp
  | cons e l ih =>
      intro acc
      by_cases h : p e <;>
        simp [List.filter_cons, h, ih, List.append_assoc]

/-- `getPossibleNextWords` as filter-then-expand over the raw
dictionary, in iteration order, with original strings. -/
theorem getPossibleNextWords_eq (dictionary : WordDictionary)
    (endingWord : Str) :
    getPossibleNextWords dictionary endingWord =
      (dictionary.filter (fun e => normKeyOf e.1 == normKeyOf endingWord)).flatMap
        (fun e => e.2.map (fun secondWord => WordPair.mk e.1 secondWord)) := by
  simp only [normKeyOf, getPossibleNextWords]
  rw [foldl_filter_push
    (fun e : Str × List Str =>
      normalizeVietnamese (toLowerStr e.1) ==
        normalizeVietnamese (toLowerStr endingWord))
    (fun e : Str × List Str =>
      e.2.map (fun secondWord => WordPair.mk e.1 secondWord))
    dictionary []]
  simp

/-- Every emitted candidate's first syllable normalizes to the
normalized ending word. -/
theorem getPossibleNextWords_first_norm (dictionary : WordDictionary)
    (endingWord : Str) (w : WordPair)
    (hw : w ∈ getPossibleNextWords dictionary endingWord) :
    normKeyOf w.first = normKeyOf endingWord := by
  rw [getPossibleNextWords_eq] at hw
  rw [List.mem_flatMap] at hw
  obtain ⟨e, he, hwe⟩ := hw
  rw [List.mem_filter] at he
  rw [List.mem_map] at hwe
  obtain ⟨v, _, rfl⟩ := hwe
  exact eq_of_beq he.2

/-! ### Properties of `splitWs` -/

theorem splitWs_tokens (s : Str) :
    ∀ w ∈ splitWs s, w ≠ [] ∧ w.all (fun c => !jsWs c) = true := by
  have main : ∀ (l cur : Str), cur.all (fun c => !jsWs c) = true →
      ∀ w ∈ splitWsGo cur l, w ≠ [] ∧ w.all (fun c => !jsWs c) = true := by
    intro l
    induction l with
    | nil =>
        intro cur hcur w hw
        rw [splitWsGo] at hw
        cases hc : cur.isEmpty with
        | true => rw [hc] at hw; simp at hw
        | false =>
            rw [hc] at hw
            simp at hw
            subst hw
            refine ⟨fun hnil => ?_, by simpa using hcur⟩
            have hcur_nil : cur = [] := by
              simpa using congrArg List.reverse hnil
            rw [hcur_nil] at hc
            simp at hc
    | cons c l ih =>
        intro cur hcur w hw
        rw [splitWsGo] at hw
        cases hws : jsWs c with
        | true =>
            rw [hws] at hw
            simp only [if_pos rfl] at hw
            cases hc : cur.isEmpty with
            | true =>
                rw [hc] at hw
                simp only [if_pos rfl] at hw
                exact ih [] rfl w hw
            | false =>
                rw [hc] at hw
                simp at hw
                rcases hw with hw | hw
                · subst hw
                  refine ⟨fun hnil => ?_, by simpa using hcur⟩
                  have hcur_nil : cur = [] := by
                    simpa using congrArg List.reverse hnil
                  rw [hcur_nil] at hc
                  simp at hc
                · exact ih [] rfl w hw
        | false =>
            rw [hws] at hw
            simp at hw
            refine ih (c :: cur) ?_ w hw
            simp [List.all_cons, hws, hcur]
  exact main s [] rfl

/-! ### Claim theorems: normalizer and index -/

/-- C3: `normalizeVietnamese` is idempotent on every string of the
model, and on the concrete inputs it maps "đất" to "dat" and "Đất" to
"Dat", preserving the capital D. -/
theorem claim_C3 :
    (∀ s : Str,
      normalizeVietnamese (normalizeVietnamese s) = normalizeVietnamese s) ∧
    normalizeVietnamese (String.toList "đất") = String.toList "dat" ∧
    normalizeVietnamese (String.toList "Đất") = String.toList "Dat" :=
  ⟨normalizeVietnamese_idem, by decide, by decide⟩

/-- C1, counterexample: in the dictionary with the two distinct keys
"đa" and "da", which normalize to the same form, the index maps that
form to the values of the last key only — neither to the values of
"đa" nor to the concatenation of both value sequences. -/
theorem claim_C1_counterexample :
    String.toList "đa" ≠ String.toList "da" ∧
    normKeyOf (String.toList "đa") = normKeyOf (String.toList "da") ∧
    mapGet (normalizedDictionary collidingDictionary)
        (normKeyOf (String.toList "đa")) = some [String.toList "bò"] ∧
    mapGet (normalizedDictionary collidingDictionary)
        (normKeyOf (String.toList "đa")) ≠ some [String.toList "cam"] ∧
    mapGet (normalizedDictionary collidingDictionary)
        (normKeyOf (String.toList "đa")) ≠
      some [String.toList "cam", String.toList "bò"] := by decide

/-- C1, amended: the index maps the normalized lowercased form of a key
to exactly the lowercased values of the **last** dictionary entry whose
key normalizes to that form (overwrite, not concatenation); in
particular for a key whose normalized form is unique the invariant holds
as originally stated. -/
theorem claim_C1 (l1 l2 : WordDictionary) (K : Str) (vs : List Str)
    (h : ∀ e ∈ l2, normKeyOf e.1 ≠ normKeyOf K) :
    mapGet (normalizedDictionary (l1 ++ (K, vs) :: l2)) (normKeyOf K) =
      some (vs.map toLowerStr) :=
  normalizedDictionary_last_wins l1 l2 K vs h

theorem claim_C1_witness :
    mapGet
        (normalizedDictionary
          ([(String.toList "đa", [String.toList "cam"])] ++
            (String.toList "da", [String.toList "bò"]) :: []))
        (normKeyOf (String.toList "da")) = some [String.toList "bò"] :=
  claim_C1 [(String.toList "đa", [String.toList "cam"])] []
    (String.toList "da") [String.toList "bò"] (by simp)

/-- C2, counterexample: "cam" is a value of the key "đa" of the colliding
dictionary, yet `isWordInDictionary` rejects the pair, because the
binding of the shared normalized key was overwritten by the later key
"da". -/
theorem claim_C2_counterexample :
    (String.toList "đa", [String.toList "cam"]) ∈ collidingDictionary ∧
    String.toList "cam" ∈ [String.toList "cam"] ∧
    isWordInDictionary collidingDictionary (String.toList "đa")
      (String.toList "cam") = false := by decide

/-- C2, amended: provided no two dictionary entries have the same
normalized lowercased key, every value of every key is accepted by
`isWordInDictionary`. -/
theorem claim_C2 (dictionary : WordDictionary)
    (huniq : (dictionary.map (fun e => normKeyOf e.1)).Nodup)
    (k : Str) (vs : List Str) (hmem : (k, vs) ∈ dictionary)
    (v : Str) (hv : v ∈ vs) :
    isWordInDictionary dictionary k v = true := by
  obtain ⟨s, t, hst⟩ := List.append_of_mem hmem
  subst hst
  have hnotin : ∀ e ∈ t, normKeyOf e.1 ≠ normKeyOf k := by
    rw [List.map_append, List.map_cons] at huniq
    have hcons := huniq.of_append_right
    have hnot := (List.nodup_cons.mp hcons).1
    intro e he heq
    exact hnot (heq ▸ List.mem_map_of_mem _ he)
  have hget :
      mapGet (normalizedDictionary (s ++ (k, vs) :: t))
        (normalizeVietnamese (toLowerStr k)) = some (vs.map toLowerStr) :=
    normalizedDictionary_last_wins s t k vs hnotin
  simp only [isWordInDictionary, hget]
  exact List.elem_iff.mpr (List.mem_map_of_mem _ hv)

theorem claim_C2_witness :
    isWordInDictionary sampleDictionary (String.toList "thế")
      (String.toList "chân") = true :=
  claim_C2 sampleDictionary (by decide) (String.toList "thế")
    [String.toList "chân", String.toList "giới"] (by decide)
    (String.toList "chân") (by decide)

/-! ### Claim theorems: next-word search -/

/-- C7: `getPossibleNextWords` is the in-order expansion of the raw
dictionary: it filters the original entries to those whose normalized
lowercased key equals the normalized lowercased ending word and emits
one pair per value, carrying the original key and value strings. -/
theorem claim_C7 (dictionary : WordDictionary) (endingWord : Str) :
    getPossibleNextWords dictionary endingWord =
      (dictionary.filter (fun e =>
          normalizeVietnamese (toLowerStr e.1) ==
            normalizeVietnamese (toLowerStr endingWord))).flatMap
        (fun e => e.2.map (fun secondWord => WordPair.mk e.1 secondWord)) :=
  getPossibleNextWords_eq dictionary endingWord

/-- C9: whenever `findNextWord` with a non-null current pair returns a
chosen word, that word connects to the current pair. -/
theorem claim_C9 (dictionary : WordDictionary) (choose : Nat → Nat)
    (current : WordPair) (history : List WordPair) (w : WordPair)
    (h : (findNextWord dictionary choose (some current) history).word =
      some w) :
    canConnect current w = true := by
  simp only [findNextWord] at h
  by_cases hp : (getPossibleNextWords dictionary current.second).isEmpty = true
  · simp [hp] at h
  · rw [Bool.not_eq_true] at hp
    simp only [hp, Bool.false_eq_true, if_false] at h
    by_cases ha :
        (filterHistory history
          (getPossibleNextWords dictionary current.second)).isEmpty = true
    · simp [ha] at h
    · rw [Bool.not_eq_true] at ha
      simp only [ha, Bool.false_eq_true, if_false] at h
      have hmem : w ∈ filterHistory history
          (getPossibleNextWords dictionary current.second) :=
        List.get?_mem h
      have hmem' : w ∈ getPossibleNextWords dictionary current.second := by
        rw [filterHistory] at hmem
        exact (List.mem_filter.mp hmem).1
      have hnorm := getPossibleNextWords_first_norm _ _ _ hmem'
      simp only [canConnect]
      exact beq_iff_eq.mpr (by simpa [normKeyOf] using hnorm.symm)

theorem claim_C9_witness :
    canConnect ⟨String.toList "thế", String.toList "chân"⟩
      ⟨String.toList "chân", String.toList "thật"⟩ = true :=
  claim_C9 sampleDictionary (fun _ => 0)
    ⟨String.toList "thế", String.toList "chân"⟩ []
    ⟨String.toList "chân", String.toList "thật"⟩ (by decide)

theorem vietnameseRegexChar_of_not_ws {c : Char} (h : jsWs c = false) :
    vietnameseRegexChar c = letterClass c := by
  rw [vietnameseRegexChar, letterClass, h]
  simp [Bool.or_assoc]

theorem all_regexChar_eq_all_letterClass {w : Str}
    (hws : w.all (fun c => !jsWs c) = true) :
    w.all vietnameseRegexChar = w.all letterClass := by
  induction w with
  | nil => rfl
  | cons c t ih =>
      rw [List.all_cons, Bool.and_eq_true] at hws
      rw [List.all_cons, List.all_cons,
        vietnameseRegexChar_of_not_ws (by simpa using hws.1), ih hws.2]

/-- On a whitespace-free token, the regex test is the nonemptiness plus
the letter class. -/
theorem vietnameseRegexTest_eq_letterClass {w : Str} (hne : w ≠ [])
    (hws : w.all (fun c => !jsWs c) = true) :
    vietnameseRegexTest w = w.all letterClass := by
  rw [vietnameseRegexTest]
  have hempty : w.isEmpty = false := by
    cases w with
    | nil => exact absurd rfl hne
    | cons c t => rfl
  rw [hempty]
  simp only [Bool.not_false, Bool.true_and]
  exact all_regexChar_eq_all_letterClass hws

/-- Structural characterization of a passing format check. -/
theorem validateFormat_isValid_iff (input : Str) :
    (validateFormat input).isValid = true ↔
      (jsTrim input ≠ [] ∧ ∃ w0 w1, splitWs (jsTrim input) = [w0, w1] ∧
        vietnameseRegexTest w0 = true ∧ vietnameseRegexTest w1 = true) := by
  simp only [validateFormat]
  cases hE : (jsTrim input).isEmpty with
  | true =>
      have : jsTrim input = [] := by simpa using hE
      simp [this]
  | false =>
      have hne : jsTrim input ≠ [] := by simpa using hE
      simp only [Bool.false_eq_true, if_false]
      cases hs : splitWs (jsTrim input) with
      | nil => simp [hs, hne]
      | cons w ws =>
          cases ws with
          | nil => simp [hs, hne]
          | cons w1 ws2 =>
              cases ws2 with
              | nil =>
                  cases h0 : vietnameseRegexTest w with
                  | false =>
                      cases h1 : vietnameseRegexTest w1 <;>
                        simp [hs, hne, h0, h1]
                  | true =>
                      cases h1 : vietnameseRegexTest w1 with
                      | false => simp [hs, hne, h0, h1]
                      | true =>
                          simp [hs, hne, h0, h1]
                          exact ⟨w, w1, ⟨rfl, rfl⟩, h0, h1⟩
              | cons w2 ws3 => simp [hs, hne]

/-- C4: the format check passes exactly when the trimmed input is
nonempty, splits into exactly two whitespace-free tokens, and every
token character lies in the Vietnamese-plus-ASCII-letter class; the
enumerated rejections hold, and the plain-ASCII input "hello world"
passes format but fails dictionary lookup with `word_not_found`. -/
theorem claim_C4 :
    (∀ input : Str,
      (validateFormat input).isValid = true ↔
        (jsTrim input ≠ [] ∧ (splitWs (jsTrim input)).length = 2 ∧
          ∀ w ∈ splitWs (jsTrim input), w.all letterClass = true)) ∧
    validateFormat (String.toList "") = ⟨false, none⟩ ∧
    validateFormat (String.toList "thế") = ⟨false, none⟩ ∧
    validateFormat (String.toList "thế chân thật") = ⟨false, none⟩ ∧
    validateFormat (String.toList "ab1 cd") = ⟨false, none⟩ ∧
    validateFormat (String.toList "xin chào!") = ⟨false, none⟩ ∧
    (validateFormat (String.toList "hello world")).isValid = true ∧
    validateWord sampleDictionary (String.toList "hello world") [] =
      ⟨false, some Reason.word_not_found,
        some (msgNotFound (String.toList "hello") (String.toList "world"))⟩ := by
  refine ⟨?_, by decide, by decide, by decide, by decide, by decide,
    by decide, by decide⟩
  intro input
  rw [validateFormat_isValid_iff]
  constructor
  · rintro ⟨hne, w0, w1, hs, h0, h1⟩
    refine ⟨hne, by rw [hs]; rfl, ?_⟩
    intro w hw
    have htok := splitWs_tokens (jsTrim input) w hw
    rw [← vietnameseRegexTest_eq_letterClass htok.1 htok.2]
    rw [hs] at hw
    simp only [List.mem_cons, List.not_mem_nil, or_false] at hw
    rcases hw with rfl | rfl
    · exact h0
    · exact h1
  · rintro ⟨hne, hlen, hall⟩
    obtain ⟨w0, w1, hs⟩ := List.length_eq_two.mp hlen
    have h0 := splitWs_tokens (jsTrim input) w0 (by rw [hs]; simp)
    have h1 := splitWs_tokens (jsTrim input) w1 (by rw [hs]; simp)
    refine ⟨hne, w0, w1, hs, ?_, ?_⟩
    · rw [vietnameseRegexTest_eq_letterClass h0.1 h0.2]
      exact hall w0 (by rw [hs]; simp)
    · rw [vietnameseRegexTest_eq_letterClass h1.1 h1.2]
      exact hall w1 (by rw [hs]; simp)

theorem claim_C4_witness :
    (validateFormat (String.toList "xanh lá")).isValid = true :=
  (claim_C4.1 (String.toList "xanh lá")).mpr (by decide)

/-! ### Claim theorems: word validation and connection -/

/-- C5: `validateWord` reports only through the result value, in check
order: a format failure yields `invalid_format` with the fixed message;
then a pair absent from the dictionary yields `word_not_found` with the
pair embedded in the message; then a pair whose pair key is among the
used keys yields `word_used` with the fixed message; otherwise the
result is valid with no reason and no message. -/
theorem claim_C5 (dictionary : WordDictionary) (input : Str)
    (usedWords : List Str) :
    ((validateFormat input).isValid = false →
      validateWord dictionary input usedWords =
        ⟨false, some Reason.invalid_format, some msgInvalidFormat⟩) ∧
    (∀ w0 w1, validateFormat input = ⟨true, some [w0, w1]⟩ →
      (isWordInDictionary dictionary w0 w1 = false →
        validateWord dictionary input usedWords =
          ⟨false, some Reason.word_not_found, some (msgNotFound w0 w1)⟩) ∧
      (isWordInDictionary dictionary w0 w1 = true →
        (usedWords.contains (wordKey w0 w1) = true →
          validateWord dictionary input usedWords =
            ⟨false, some Reason.word_used, some msgWordUsed⟩) ∧
        (usedWords.contains (wordKey w0 w1) = false →
          validateWord dictionary input usedWords = ⟨true, none, none⟩))) := by
  constructor
  · intro h
    cases hF : validateFormat input with
    | mk iv ws =>
        rw [hF] at h
        simp at h
        subst h
        simp [validateWord, hF]
  · intro w0 w1 hF
    constructor
    · intro hd
      simp [validateWord, hF, hd]
    · intro hd
      constructor
      · intro hu
        simp [validateWord, hF, hd, hu]
        simpa using hu
      · intro hu
        simp [validateWord, hF, hd, hu]
        simpa using hu

theorem claim_C5_witness :
    validateWord sampleDictionary (String.toList "thế chân")
        [wordKey (String.toList "thế") (String.toList "chân")] =
      ⟨false, some Reason.word_used, some msgWordUsed⟩ :=
  (((claim_C5 sampleDictionary (String.toList "thế chân")
        [wordKey (String.toList "thế") (String.toList "chân")]).2
      (String.toList "thế") (String.toList "chân") (by decide)).2
    (by decide)).1 (by decide)

/-- C6: `canConnect` holds exactly when the normalized lowercased second
syllable of the first pair equals the normalized lowercased first
syllable of the second pair; `validateConnection` is always valid at
game start and otherwise fails with reason `no_connection` exactly when
`canConnect` fails. -/
theorem claim_C6 (a b next current : WordPair) :
    (canConnect a b = true ↔
      normalizeVietnamese (toLowerStr a.second) =
        normalizeVietnamese (toLowerStr b.first)) ∧
    validateConnection none next = ⟨true, none, none⟩ ∧
    ((validateConnection (some current) next).isValid = false ↔
      canConnect current next = false) ∧
    (canConnect current next = false →
      validateConnection (some current) next =
        ⟨false, some Reason.no_connection,
          some (msgNoConnection next current)⟩) ∧
    (canConnect current next = true →
      validateConnection (some current) next = ⟨true, none, none⟩) := by
  refine ⟨by simp [canConnect], rfl, ?_, ?_, ?_⟩ <;>
    cases hc : canConnect current next <;>
      simp [validateConnection, hc]

theorem claim_C6_witness :
    canConnect ⟨String.toList "thế", String.toList "chân"⟩
        ⟨String.toList "chân", String.toList "thật"⟩ = true ∧
    canConnect ⟨String.toList "thế", String.toList "chân"⟩
        ⟨String.toList "xanh", String.toList "lá"⟩ = false ∧
    validateConnection (some ⟨String.toList "thế", String.toList "chân"⟩)
        ⟨String.toList "xanh", String.toList "lá"⟩ =
      ⟨false, some Reason.no_connection,
        some (msgNoConnection ⟨String.toList "xanh", String.toList "lá"⟩
          ⟨String.toList "thế", String.toList "chân"⟩)⟩ :=
  ⟨(claim_C6 ⟨String.toList "thế", String.toList "chân"⟩
      ⟨String.toList "chân", String.toList "thật"⟩
      ⟨String.toList "chân", String.toList "thật"⟩
      ⟨String.toList "thế", String.toList "chân"⟩).1.mpr (by decide),
   by decide,
   ((claim_C6 ⟨String.toList "thế", String.toList "chân"⟩
      ⟨String.toList "chân", String.toList "thật"⟩
      ⟨String.toList "xanh", String.toList "lá"⟩
      ⟨String.toList "thế", String.toList "chân"⟩).2.2.2.1) (by decide)⟩

/-! ### Claim theorems: next-move selection and pair keys -/

/-- C8: with a non-null current pair, `findNextWord` never chooses a
pair matching a history entry under normalized lowercased comparison of
both fields; an empty candidate set yields not-found with no
alternatives; a nonempty candidate set that the history filter empties
yields not-found with the full unfiltered candidates as alternatives;
and a found result carries the first 5 entries of the filtered
available list as alternatives. -/
theorem claim_C8 (dictionary : WordDictionary) (choose : Nat → Nat)
    (current : WordPair) (history : List WordPair) :
    (∀ w, (findNextWord dictionary choose (some current) history).word =
        some w →
      ∀ hp ∈ history,
        ¬(normalizeVietnamese (toLowerStr hp.first) =
            normalizeVietnamese (toLowerStr w.first) ∧
          normalizeVietnamese (toLowerStr hp.second) =
            normalizeVietnamese (toLowerStr w.second))) ∧
    (getPossibleNextWords dictionary current.second = [] →
      findNextWord dictionary choose (some current) history =
        ⟨none, false, none⟩) ∧
    (getPossibleNextWords dictionary current.second ≠ [] →
      filterHistory history (getPossibleNextWords dictionary current.second) =
        [] →
      findNextWord dictionary choose (some current) history =
        ⟨none, false, some (getPossibleNextWords dictionary current.second)⟩) ∧
    ((findNextWord dictionary choose (some current) history).found = true →
      (findNextWord dictionary choose (some current) history).alternatives =
        some ((filterHistory history
          (getPossibleNextWords dictionary current.second)).take 5)) := by
  refine ⟨?_, ?_, ?_, ?_⟩
  · intro w hword hp hmem hcontra
    simp only [findNextWord] at hword
    by_cases hpo :
        (getPossibleNextWords dictionary current.second).isEmpty = true
    · simp [hpo] at hword
    · rw [Bool.not_eq_true] at hpo
      simp only [hpo, Bool.false_eq_true, if_false] at hword
      by_cases ha :
          (filterHistory history
            (getPossibleNextWords dictionary current.second)).isEmpty = true
      · simp [ha] at hword
      · rw [Bool.not_eq_true] at ha
        simp only [ha, Bool.false_eq_true, if_false] at hword
        have hw : w ∈ filterHistory history
            (getPossibleNextWords dictionary current.second) :=
          List.get?_mem hword
        rw [filterHistory, List.mem_filter] at hw
        have hany := hw.2
        rw [Bool.not_eq_true', List.any_eq_false] at hany
        have := hany hp hmem
        rw [hcontra.1, hcontra.2] at this
        simp at this
  · intro hP
    simp [findNextWord, hP]
  · intro hP hA
    have hPo : (getPossibleNextWords dictionary current.second).isEmpty =
        false := by simpa using hP
    simp [findNextWord, hPo, hA]
  · intro hfound
    simp only [findNextWord] at hfound ⊢
    by_cases hpo :
        (getPossibleNextWords dictionary current.second).isEmpty = true
    · simp [hpo] at hfound
    · rw [Bool.not_eq_true] at hpo
      simp only [hpo, Bool.false_eq_true, if_false] at hfound ⊢
      by_cases ha :
          (filterHistory history
            (getPossibleNextWords dictionary current.second)).isEmpty = true
      · simp [ha] at hfound
      · rw [Bool.not_eq_true] at ha
        simp [ha]

theorem claim_C8_witness :
    findNextWord sampleDictionary (fun _ => 0)
        (some ⟨String.toList "thế", String.toList "chân"⟩)
        [⟨String.toList "chân", String.toList "thật"⟩,
         ⟨String.toList "chân", String.toList "trời"⟩] =
      ⟨none, false,
        some [⟨String.toList "chân", String.toList "thật"⟩,
              ⟨String.toList "chân", String.toList "trời"⟩]⟩ :=
  ((claim_C8 sampleDictionary (fun _ => 0)
      ⟨String.toList "thế", String.toList "chân"⟩
      [⟨String.toList "chân", String.toList "thật"⟩,
       ⟨String.toList "chân", String.toList "trời"⟩]).2.2.1
    (by decide) (by decide))

/-- C10: the pair key strips diacritics from both syllables, so pairs
whose second syllables differ only in diacritics share one pair key and
`validateWord` reports `word_used` for an input whose diacritic variant
is in the used set, although `isWordInDictionary` keeps diacritics on
the second syllable significant. -/
theorem claim_C10 :
    (∀ f v1 v2 : Str,
      normalizeVietnamese (toLowerStr v1) =
        normalizeVietnamese (toLowerStr v2) →
      wordKey f v1 = wordKey f v2) ∧
    String.toList "bạn" ≠ String.toList "ban" ∧
    isWordInDictionary pairKeyDictionary (String.toList "a")
      (String.toList "bạn") = true ∧
    isWordInDictionary pairKeyDictionary (String.toList "a")
      (String.toList "ban") = true ∧
    wordKey (String.toList "a") (String.toList "bạn") =
      wordKey (String.toList "a") (String.toList "ban") ∧
    validateWord pairKeyDictionary (String.toList "a bạn")
        [wordKey (String.toList "a") (String.toList "ban")] =
      ⟨false, some Reason.word_used, some msgWordUsed⟩ ∧
    isWordInDictionary [(String.toList "a", [String.toList "ban"])]
      (String.toList "a") (String.toList "bạn") = false := by
  refine ⟨?_, by decide, by decide, by decide, by decide, by decide,
    by decide⟩
  intro f v1 v2 h
  rw [wordKey, wordKey, h]

theorem claim_C10_witness :
    wordKey (String.toList "xanh") (String.toList "bạn") =
      wordKey (String.toList "xanh") (String.toList "ban") :=
  claim_C10.1 (String.toList "xanh") (String.toList "bạn")
    (String.toList "ban") (by decide)
